import Mathlib

/-!
Verification of the treeline-cashflow recurring-transaction detection and
balance-projection pipeline.

The definitions below are a shallow embedding of the source:
- `src/CashflowView.svelte`: `generateProjections`, `RECURRING_SQL`, `loadData`
  (frequency classification and next-occurrence prediction), `hideTransaction`,
  `unhideTransaction`, `setHorizon`, and the derived `lowestBalance`.
- the dialog component (`src/unnamed/part_000`): `SUGGESTION_SQL`, `loadSuggestions`.

Modelling conventions:
- calendar dates are integers (day numbers); JavaScript `Date` day arithmetic
  (`setDate(getDate() + n)`) is `+ n` on day numbers, and ISO-date string
  equality is day-number equality;
- decimal amounts are rationals; JavaScript `Math.round(x)` is `⌊x + 1/2⌋`
  (halves toward positive infinity), so `Math.round(x * 100) / 100` is `round2`;
- the black-box SQL string-similarity primitive `jaro_winkler_similarity` is an
  uninterpreted parameter `sim : String → String → ℚ`.
-/

/-- JavaScript `Math.round((x) * 100) / 100`: round to 2 decimals, halves toward +∞. -/
def round2 (x : ℚ) : ℚ := ((⌊x * 100 + 1/2⌋ : ℤ) : ℚ) / 100

/-- The `RecurringTransaction` record built in `loadData` (CashflowView.svelte). -/
structure RecurringTxn where
  description : String
  merchant_key : String
  amount : ℚ
  frequency : String
  interval_days : ℕ
  occurrence_count : ℕ
  last_date : ℤ
  next_date : ℤ
  is_income : Bool
  is_hidden : Bool
deriving DecidableEq, Repr

/-- The `ProjectedDay` record produced by `generateProjections`. -/
structure ProjectedDay where
  date : ℤ
  balance : ℚ
  transactions : List (String × ℚ)
  is_danger : Bool
deriving DecidableEq, Repr

/-- The inner occurrence-check loop of `generateProjections`
(CashflowView.svelte lines 334-344): starting from `check` (= `txn.next_date`),
step forward by `interval` while `check ≤ day`; report true exactly when some
step hits `day`.  The source loop has no guard on `interval`; it only
terminates because every pattern reaching it has `interval_days ≥ 5 > 0`, and
the `0 < interval` conjunct in the recursion guard records exactly that
termination condition. -/
def occursOn (interval : ℕ) (day : ℤ) (check : ℤ) : Bool :=
  if check = day then true
  else if h : check < day ∧ 0 < interval then occursOn interval day (check + interval)
  else false
termination_by (day - check).toNat
decreasing_by
  omega

/-- The `dayTransactions` list built for one projected day: every active
pattern whose occurrence loop hits the day contributes one
(description, amount) entry, in pattern-list order. -/
def dayTransactions (active : List RecurringTxn) (day : ℤ) : List (String × ℚ) :=
  active.filterMap fun t =>
    if occursOn t.interval_days day t.next_date then some (t.description, t.amount) else none

/-- The `dayTotal` reduce in `generateProjections`: sum of the day's landing amounts. -/
def daySum (active : List RecurringTxn) (day : ℤ) : ℚ :=
  ((dayTransactions active day).map Prod.snd).sum

/-- The body of the `for (let i = 0; i <= horizonDays; i++)` loop of
`generateProjections`, as a recursion on the number of remaining days:
build the day's transaction list, add its total to the running balance,
round to cents, and flag danger when the new balance is below the threshold. -/
def projectDays (active : List RecurringTxn) (threshold : ℚ) :
    ℤ → ℚ → ℕ → List ProjectedDay
  | _, _, 0 => []
  | day, bal, n + 1 =>
    let txns := dayTransactions active day
    let bal2 := round2 (bal + (txns.map Prod.snd).sum)
    { date := day, balance := bal2, transactions := txns,
      is_danger := decide (bal2 < threshold) } ::
      projectDays active threshold (day + 1) bal2 n

/-- `generateProjections` (CashflowView.svelte lines 311-360): filter out the
hidden patterns, then simulate days `today .. today + horizonDays`. -/
def generateProjections (today : ℤ) (currentBalance : ℚ) (dangerThreshold : ℚ)
    (horizonDays : ℕ) (recurring : List RecurringTxn) (hiddenKeys : Finset String) :
    List ProjectedDay :=
  let active := recurring.filter fun t => decide (t.merchant_key ∉ hiddenKeys)
  projectDays active dangerThreshold today currentBalance (horizonDays + 1)

/-- The derived `lowestBalance` (CashflowView.svelte lines 72-74):
`Math.min(...projections.map(p => p.balance))` when the projection list is
nonempty, else the current balance.  The spread `Math.min` is a left fold. -/
def lowestBalance (projections : List ProjectedDay) (currentBalance : ℚ) : ℚ :=
  match projections.map (·.balance) with
  | [] => currentBalance
  | b :: bs => bs.foldl min b

/-- The frequency bucket chain of `loadData` (CashflowView.svelte lines 268-274). -/
def classifyFrequency (interval_days : ℤ) : String :=
  if interval_days ≤ 8 then "weekly"
  else if interval_days ≤ 16 then "biweekly"
  else if interval_days ≤ 35 then "monthly"
  else if interval_days ≤ 100 then "quarterly"
  else "annual"

/-- The frequency bucket chain of `loadSuggestions` (part_000 lines 366-372),
transcribed separately from its own source text. -/
def classifyFrequencySuggestion (interval : ℤ) : String :=
  if interval ≤ 8 then "weekly"
  else if interval ≤ 16 then "biweekly"
  else if interval ≤ 35 then "monthly"
  else if interval ≤ 100 then "quarterly"
  else "annual"

/-- The `while (nextDateObj < today)` loop of `loadData` (CashflowView.svelte
lines 284-286): advance the candidate by `interval` days until it is no longer
strictly before `today`.  As with `occursOn`, the `0 < interval` conjunct in
the guard records the termination condition the source relies on
(`interval_days ≥ 5` for every pattern that reaches this loop). -/
def advancePastToday (interval : ℕ) (today : ℤ) (cand : ℤ) : ℤ :=
  if h : cand < today ∧ 0 < interval then advancePastToday interval today (cand + interval)
  else cand
termination_by (today - cand).toNat
decreasing_by
  omega

/-- Next-occurrence prediction (CashflowView.svelte lines 277-286): start at
`last_date + interval_days`, then advance while strictly before `today`. -/
def nextOccurrence (today lastDate : ℤ) (interval : ℕ) : ℤ :=
  advancePastToday interval today (lastDate + interval)

/-- Fuel-bounded version of the `advancePastToday` loop: performs at most
`fuel` iterations of the source's `while` body. -/
def advanceFuel (interval : ℕ) (today : ℤ) : ℕ → ℤ → ℤ
  | 0, cand => cand
  | n + 1, cand => if cand < today then advanceFuel interval today n (cand + interval) else cand

/-- Number of loop-guard evaluations the `advancePastToday` loop performs. -/
def advanceSteps (interval : ℕ) (today : ℤ) (cand : ℤ) : ℕ :=
  if h : cand < today ∧ 0 < interval then advanceSteps interval today (cand + interval) + 1
  else 0
termination_by (today - cand).toNat
decreasing_by
  omega

/-- Fuel-bounded version of the `occursOn` loop. -/
def occursFuel (interval : ℕ) (day : ℤ) : ℕ → ℤ → Bool
  | 0, _ => false
  | n + 1, check =>
    if check = day then true
    else if check < day then occursFuel interval day n (check + interval)
    else false

/-- Number of iterations the `occursOn` loop performs. -/
def occursSteps (interval : ℕ) (day : ℤ) (check : ℤ) : ℕ :=
  if check = day then 1
  else if h : check < day ∧ 0 < interval then occursSteps interval day (check + interval) + 1
  else 1
termination_by (day - check).toNat
decreasing_by
  omega

/-! ## View state and the hide / unhide / horizon actions -/

/-- The reactive state of `CashflowView.svelte` that the pipeline reads and the
actions mutate, with the reference date (`new Date()` at midnight) made
explicit. -/
structure ViewState where
  recurringTransactions : List RecurringTxn
  hiddenKeys : Finset String
  currentBalance : ℚ
  projections : List ProjectedDay
  horizonDays : ℕ
  dangerThreshold : ℚ
  today : ℤ
deriving DecidableEq

/-- Regenerating the projections from the current state, as the
`generateProjections()` call sites do. -/
def stateProjections (s : ViewState) : List ProjectedDay :=
  generateProjections s.today s.currentBalance s.dangerThreshold s.horizonDays
    s.recurringTransactions s.hiddenKeys

/-- The state mutations of `hideTransaction` (CashflowView.svelte lines 363-381)
after the exclusion-store write succeeded: add the key to the hidden set, set
`is_hidden` on every matching pattern, regenerate projections. -/
def hideTransactionOk (s : ViewState) (key : String) : ViewState :=
  let s' := { s with
    hiddenKeys := insert key s.hiddenKeys,
    recurringTransactions := s.recurringTransactions.map fun (t : RecurringTxn) =>
      if t.merchant_key = key then { t with is_hidden := true } else t }
  { s' with projections := stateProjections s' }

/-- The state mutations of `unhideTransaction` (CashflowView.svelte lines
383-400) after the exclusion-store delete succeeded. -/
def unhideTransactionOk (s : ViewState) (key : String) : ViewState :=
  let s' := { s with
    hiddenKeys := s.hiddenKeys.erase key,
    recurringTransactions := s.recurringTransactions.map fun (t : RecurringTxn) =>
      if t.merchant_key = key then { t with is_hidden := false } else t }
  { s' with projections := stateProjections s' }

/-- The whole `hideTransaction` action: the `sdk.execute` persisting the key is
the first statement of the `try` block, so when the write fails (`writeOk =
false`) the `catch` arm reports the error and no state field has been touched. -/
def hideTransaction (writeOk : Bool) (s : ViewState) (key : String) :
    ViewState × Except Unit Unit :=
  if writeOk then (hideTransactionOk s key, Except.ok ()) else (s, Except.error ())

/-- The whole `unhideTransaction` action, with the same failure behaviour. -/
def unhideTransaction (writeOk : Bool) (s : ViewState) (key : String) :
    ViewState × Except Unit Unit :=
  if writeOk then (unhideTransactionOk s key, Except.ok ()) else (s, Except.error ())

/-- The `setHorizon` action (CashflowView.svelte lines 402-406): store the new
horizon and regenerate the projections; nothing else is touched. -/
def setHorizon (s : ViewState) (days : ℕ) : ViewState :=
  let s' := { s with horizonDays := days }
  { s' with projections := stateProjections s' }

/-! ## The SQL detection pipeline

`RECURRING_SQL` (CashflowView.svelte lines 163-245) and `SUGGESTION_SQL`
(part_000 lines 289-360) share, character for character, the CTE chain
`base_transactions → canonical_merchants → grouped_transactions →
merchant_transactions → merchant_intervals`; the definitions of that chain
below are therefore shared by both query transcriptions.  The two queries
differ only in the `merchant_stats` stage (selected columns and `HAVING`
clause) and in the final `SELECT` / `ORDER BY`, transcribed separately. -/

/-- A row of the external `transactions` table. -/
structure RawTxn where
  description : String
  amount : ℚ
  transaction_date : ℤ
deriving DecidableEq, Repr

/-- DuckDB `ROUND(x, 2)`: round to 2 decimals, halves away from zero. -/
def sqlRound2 (x : ℚ) : ℚ :=
  if 0 ≤ x then ((⌊x * 100 + 1/2⌋ : ℤ) : ℚ) / 100
  else -(((⌊-x * 100 + 1/2⌋ : ℤ) : ℚ) / 100)

/-- SQL `UPPER(description)`: character-wise uppercase.  This is what
`String.map Char.toUpper` computes, written by structural recursion over the
character list so that concrete instances evaluate. -/
def upperSql (s : String) : String := ⟨s.data.map Char.toUpper⟩

/-- A row of the `base_transactions` CTE. -/
structure BaseTxn where
  norm_amount : ℚ
  upper_desc : String
  description : String
  amount : ℚ
  transaction_date : ℤ
deriving DecidableEq, Repr

/-- The `base_transactions` CTE: drop rows with empty description (null
descriptions are outside the model: Lean strings are never null), normalize
amount and case-fold the description. -/
def baseTransactions (rows : List RawTxn) : List BaseTxn :=
  (rows.filter fun r => decide (r.description ≠ "")).map fun r =>
    { norm_amount := sqlRound2 r.amount, upper_desc := upperSql r.description,
      description := r.description, amount := r.amount,
      transaction_date := r.transaction_date }

/-- The chronologically earliest row among `r :: rs` (strict comparison keeps
the earlier list element on date ties, matching `ORDER BY transaction_date ASC`
with stable input order). -/
def earliestTxn (r : BaseTxn) (rs : List BaseTxn) : BaseTxn :=
  rs.foldl (fun acc b => if b.transaction_date < acc.transaction_date then b else acc) r

/-- The `canonical_merchants` CTE, looked up for one `norm_amount` bucket:
`DISTINCT ON (norm_amount) ... ORDER BY norm_amount, transaction_date ASC`
keeps the upper-cased description of the bucket's earliest transaction. -/
def canonicalDesc (base : List BaseTxn) (na : ℚ) : Option String :=
  match base.filter fun b => decide (b.norm_amount = na) with
  | [] => none
  | r :: rs => some (earliestTxn r rs).upper_desc

/-- A row of the `grouped_transactions` CTE. -/
structure GroupedTxn where
  norm_amount : ℚ
  description : String
  amount : ℚ
  transaction_date : ℤ
  merchant_group : String
deriving DecidableEq, Repr

/-- The `grouped_transactions` CTE: join each base row with its bucket's
canonical description and pick the merchant group by fuzzy similarity.  A
missing join partner (impossible, since the row itself is in its bucket) would
give `NULL > 0.7`, hence the CASE's ELSE branch. -/
def groupedTransactions (sim : String → String → ℚ) (base : List BaseTxn) :
    List GroupedTxn :=
  base.map fun b =>
    { norm_amount := b.norm_amount, description := b.description, amount := b.amount,
      transaction_date := b.transaction_date,
      merchant_group :=
        match canonicalDesc base b.norm_amount with
        | some c => if sim b.upper_desc c > 7/10 then c else b.upper_desc
        | none => b.upper_desc }

/-- The distinct `(merchant_group, norm_amount)` grouping keys, in order of
first appearance. -/
def clusterKeys : List GroupedTxn → List (String × ℚ)
  | [] => []
  | g :: gs =>
    (g.merchant_group, g.norm_amount) ::
      (clusterKeys gs).filter fun k => decide (k ≠ (g.merchant_group, g.norm_amount))

/-- The rows of one `PARTITION BY merchant_group, norm_amount` window, in
`ORDER BY transaction_date` order (insertion sort is stable, so date ties keep
input order). -/
def clusterMembers (grouped : List GroupedTxn) (k : String × ℚ) : List GroupedTxn :=
  (grouped.filter fun g => decide ((g.merchant_group, g.norm_amount) = k)).insertionSort
    fun a b => a.transaction_date ≤ b.transaction_date

/-- A row of the `merchant_intervals` CTE. -/
structure IntervalRow where
  merchant : String
  amount : ℚ
  transaction_date : ℤ
  interval_days : ℤ
deriving DecidableEq, Repr

/-- The `merchant_transactions` window (`LAG(transaction_date)`) followed by
the `merchant_intervals` filter (`prev_date IS NOT NULL`): each row of a
sorted partition except the first, paired with its gap to the predecessor. -/
def intervalRows : List GroupedTxn → List IntervalRow
  | a :: b :: rest =>
    { merchant := b.description, amount := b.amount,
      transaction_date := b.transaction_date,
      interval_days := b.transaction_date - a.transaction_date } ::
      intervalRows (b :: rest)
  | _ => []

/-- SQL `AVG` over a nonempty list. -/
def avgQ (l : List ℚ) : ℚ := l.sum / l.length

/-- SQL `STDDEV` (sample standard deviation) compared squared: the `HAVING`
clauses only use `STDDEV(x) < AVG(x) * 0.5`, and whenever the adjacent
`BETWEEN 5 AND 400` conjunct holds the right-hand side is positive, so the
comparison is equivalent to `variance < (AVG(x) * 0.5)^2`; when `BETWEEN`
fails the whole conjunction is false either way.  `STDDEV` of a single sample
is `NULL` (denominator 0), and `NULL < c` rejects the row, hence the explicit
`2 ≤ l.length` conjunct at the use site. -/
def sampleVarQ (l : List ℚ) : ℚ :=
  (l.map fun g => (g - avgQ l) ^ 2).sum / ((l.length : ℚ) - 1)

/-- SQL `MAX(transaction_date)` over a window with first value `d`. -/
def maxDate (d : ℤ) (l : List ℤ) : ℤ := l.foldl max d

/-- A row of `RECURRING_SQL`'s final `SELECT`. -/
structure RecurringRow where
  description : String
  merchant_key : String
  avg_amount : ℚ
  occurrence_count : ℕ
  avg_interval : ℚ
  last_date : ℤ
  days_since_last : ℤ
deriving DecidableEq, Repr

/-- A row of `SUGGESTION_SQL`'s final `SELECT`; it also serves as the
statistics record shared by both queries (description, avg_amount,
occurrence_count, avg_interval, last_date). -/
structure ClusterStats where
  description : String
  avg_amount : ℚ
  occurrence_count : ℕ
  avg_interval : ℚ
  last_date : ℤ
deriving DecidableEq, Repr

/-- The `merchant_stats` stage of `RECURRING_SQL` for one grouping key:
aggregate the group's interval rows and apply `HAVING COUNT(*) >= 2 AND
AVG(interval_days) BETWEEN 5 AND 400 AND STDDEV(interval_days) <
AVG(interval_days) * 0.5` (see `sampleVarQ` for the squared encoding; the
`2 ≤` count conjunct subsumes the `NULL`-stddev case).  A group whose
partition has fewer than two rows contributes no interval rows at all and so
never reaches the `HAVING` clause. -/
def recurringStat (grouped : List GroupedTxn) (today : ℤ) (k : String × ℚ) :
    Option RecurringRow :=
  match intervalRows (clusterMembers grouped k) with
  | [] => none
  | iv :: ivs =>
    if 2 ≤ (iv :: ivs).length
        ∧ (5 ≤ avgQ ((iv :: ivs).map fun r => (r.interval_days : ℚ))
            ∧ avgQ ((iv :: ivs).map fun r => (r.interval_days : ℚ)) ≤ 400)
        ∧ sampleVarQ ((iv :: ivs).map fun r => (r.interval_days : ℚ)) <
            (avgQ ((iv :: ivs).map fun r => (r.interval_days : ℚ)) * (1/2)) ^ 2 then
      some { description := iv.merchant, merchant_key := k.1,
             avg_amount := avgQ ((iv :: ivs).map (·.amount)),
             occurrence_count := (iv :: ivs).length + 1,
             avg_interval := avgQ ((iv :: ivs).map fun r => (r.interval_days : ℚ)),
             last_date := maxDate iv.transaction_date (ivs.map (·.transaction_date)),
             days_since_last := today - maxDate iv.transaction_date
               (ivs.map (·.transaction_date)) }
    else none

/-- The `merchant_stats` stage of `SUGGESTION_SQL` for one grouping key:
`HAVING COUNT(*) >= 1 AND AVG(interval_days) BETWEEN 5 AND 400`, no
consistency filter, no merchant_key / days_since_last columns. -/
def suggestionStat (grouped : List GroupedTxn) (k : String × ℚ) :
    Option ClusterStats :=
  match intervalRows (clusterMembers grouped k) with
  | [] => none
  | iv :: ivs =>
    if 1 ≤ (iv :: ivs).length
        ∧ (5 ≤ avgQ ((iv :: ivs).map fun r => (r.interval_days : ℚ))
            ∧ avgQ ((iv :: ivs).map fun r => (r.interval_days : ℚ)) ≤ 400) then
      some { description := iv.merchant,
             avg_amount := avgQ ((iv :: ivs).map (·.amount)),
             occurrence_count := (iv :: ivs).length + 1,
             avg_interval := avgQ ((iv :: ivs).map fun r => (r.interval_days : ℚ)),
             last_date := maxDate iv.transaction_date (ivs.map (·.transaction_date)) }
    else none

/-- The full `RECURRING_SQL` query: shared CTE chain, recurring `HAVING`,
`ORDER BY ABS(avg_amount) DESC`. -/
def recurringQuery (sim : String → String → ℚ) (today : ℤ) (rows : List RawTxn) :
    List RecurringRow :=
  ((clusterKeys (groupedTransactions sim (baseTransactions rows))).filterMap
      (recurringStat (groupedTransactions sim (baseTransactions rows)) today)).insertionSort
    fun a b => |b.avg_amount| ≤ |a.avg_amount|

/-- The full `SUGGESTION_SQL` query: shared CTE chain, suggestion `HAVING`,
`ORDER BY occurrence_count DESC, ABS(avg_amount) DESC`. -/
def suggestionQuery (sim : String → String → ℚ) (rows : List RawTxn) :
    List ClusterStats :=
  ((clusterKeys (groupedTransactions sim (baseTransactions rows))).filterMap
      (suggestionStat (groupedTransactions sim (baseTransactions rows)))).insertionSort
    fun a b =>
      b.occurrence_count < a.occurrence_count ∨
        (a.occurrence_count = b.occurrence_count ∧ |b.avg_amount| ≤ |a.avg_amount|)

/-- The two policy knobs that distinguish the two queries (spec §9:
"expose the minimum-occurrence and consistency-filter-enabled as explicit
parameters"). -/
structure DetectConfig where
  minGaps : ℕ
  consistency : Bool
deriving DecidableEq, Repr

/-- Modelled from the spec: the single shared detection function of which the
two queries are configuration presets (spec §9, "model as two configuration
presets of one shared detection function").  The pipeline is the queries'
common CTE chain; the `HAVING` clause takes the minimum gap count from the
configuration and applies the consistency filter only when enabled. -/
def clusterStat (cfg : DetectConfig) (grouped : List GroupedTxn) (k : String × ℚ) :
    Option ClusterStats :=
  match intervalRows (clusterMembers grouped k) with
  | [] => none
  | iv :: ivs =>
    if cfg.minGaps ≤ (iv :: ivs).length
        ∧ (5 ≤ avgQ ((iv :: ivs).map fun r => (r.interval_days : ℚ))
            ∧ avgQ ((iv :: ivs).map fun r => (r.interval_days : ℚ)) ≤ 400)
        ∧ (cfg.consistency = true →
            2 ≤ (iv :: ivs).length
            ∧ sampleVarQ ((iv :: ivs).map fun r => (r.interval_days : ℚ)) <
                (avgQ ((iv :: ivs).map fun r => (r.interval_days : ℚ)) * (1/2)) ^ 2) then
      some { description := iv.merchant,
             avg_amount := avgQ ((iv :: ivs).map (·.amount)),
             occurrence_count := (iv :: ivs).length + 1,
             avg_interval := avgQ ((iv :: ivs).map fun r => (r.interval_days : ℚ)),
             last_date := maxDate iv.transaction_date (ivs.map (·.transaction_date)) }
    else none

/-- Modelled from the spec: the shared detection function applied to a whole
transaction history (no final `ORDER BY`: the detection result is the set of
clusters with their statistics). -/
def sharedDetect (cfg : DetectConfig) (sim : String → String → ℚ)
    (rows : List RawTxn) : List ClusterStats :=
  (clusterKeys (groupedTransactions sim (baseTransactions rows))).filterMap
    (clusterStat cfg (groupedTransactions sim (baseTransactions rows)))

/-- The statistics columns common to both queries, projected from a
`RECURRING_SQL` row. -/
def commonStats (r : RecurringRow) : ClusterStats :=
  { description := r.description, avg_amount := r.avg_amount,
    occurrence_count := r.occurrence_count, avg_interval := r.avg_interval,
    last_date := r.last_date }

/-! ## Helper lemmas -/

theorem advancePastToday_ge (interval : ℕ) (today : ℤ) (hi : 0 < interval) :
    ∀ cand, today ≤ advancePastToday interval today cand := by
  intro cand
  induction cand using advancePastToday.induct interval today with
  | case1 x hcond ih =>
    rw [advancePastToday.eq_def, dif_pos hcond]
    exact ih
  | case2 x hcond =>
    rw [advancePastToday.eq_def, dif_neg hcond]
    rcases not_and_or.mp hcond with hx | hx
    · omega
    · exact absurd hi hx

theorem occursOn_iff (interval : ℕ) (day check : ℤ) :
    occursOn interval day check = true ↔
      ∃ k : ℕ, day = check + (k : ℤ) * (interval : ℤ) := by
  induction check using occursOn.induct interval day with
  | case1 =>
    constructor
    · intro _
      exact ⟨0, by simp⟩
    · intro _
      rw [occursOn.eq_def, if_pos rfl]
  | case2 x hne hcond ih =>
    rw [occursOn.eq_def, if_neg hne, dif_pos hcond]
    rw [ih]
    constructor
    · rintro ⟨k, hk⟩
      exact ⟨k + 1, by push_cast at hk ⊢; linarith [hk]⟩
    · rintro ⟨k, hk⟩
      match k with
      | 0 => exact absurd hk.symm (by simpa using hne)
      | k + 1 => exact ⟨k, by push_cast at hk ⊢; linarith [hk]⟩
  | case3 x hne hcond =>
    rw [occursOn.eq_def, if_neg hne, dif_neg hcond]
    simp only [Bool.false_eq_true, false_iff]
    rintro ⟨k, hk⟩
    rcases not_and_or.mp hcond with hx | hx
    · have hnn : (0 : ℤ) ≤ (k : ℤ) * (interval : ℤ) :=
        mul_nonneg (Int.natCast_nonneg _) (Int.natCast_nonneg _)
      have hxle : x ≤ day := hk ▸ le_add_of_nonneg_right hnn
      exact hne (le_antisymm (not_lt.mp hx) hxle).symm
    · have hz : interval = 0 := by omega
      rw [hz] at hk
      simp at hk
      exact hne hk.symm

theorem projectDays_length (active : List RecurringTxn) (threshold : ℚ) :
    ∀ (n : ℕ) (day : ℤ) (bal : ℚ),
      (projectDays active threshold day bal n).length = n := by
  intro n
  induction n with
  | zero => intro day bal; rfl
  | succ m ih => intro day bal; simp only [projectDays, List.length_cons, ih]

theorem projectDays_get_date (active : List RecurringTxn) (threshold : ℚ) :
    ∀ (n : ℕ) (day : ℤ) (bal : ℚ) (i : ℕ)
      (hi : i < (projectDays active threshold day bal n).length),
      ((projectDays active threshold day bal n).get ⟨i, hi⟩).date = day + i := by
  intro n
  induction n with
  | zero => intro day bal i hi; simp [projectDays] at hi
  | succ m ih =>
    intro day bal i hi
    match i with
    | 0 => simp [projectDays]
    | j + 1 =>
      have hj : j < (projectDays active threshold (day + 1)
          (round2 (bal + ((dayTransactions active day).map Prod.snd).sum)) m).length := by
        have := projectDays_length active threshold m (day + 1)
          (round2 (bal + ((dayTransactions active day).map Prod.snd).sum))
        have hlen := projectDays_length active threshold (m + 1) day bal
        omega
      have := ih (day + 1)
        (round2 (bal + ((dayTransactions active day).map Prod.snd).sum)) j hj
      simp only [projectDays, List.get_cons_succ] at this ⊢
      rw [this]
      push_cast
      ring

theorem projectDays_get_txns (active : List RecurringTxn) (threshold : ℚ) :
    ∀ (n : ℕ) (day : ℤ) (bal : ℚ) (i : ℕ)
      (hi : i < (projectDays active threshold day bal n).length),
      ((projectDays active threshold day bal n).get ⟨i, hi⟩).transactions =
        dayTransactions active (day + i) := by
  intro n
  induction n with
  | zero => intro day bal i hi; simp [projectDays] at hi
  | succ m ih =>
    intro day bal i hi
    match i with
    | 0 => simp [projectDays]
    | j + 1 =>
      have hj : j < (projectDays active threshold (day + 1)
          (round2 (bal + ((dayTransactions active day).map Prod.snd).sum)) m).length := by
        have := projectDays_length active threshold m (day + 1)
          (round2 (bal + ((dayTransactions active day).map Prod.snd).sum))
        have hlen := projectDays_length active threshold (m + 1) day bal
        omega
      have := ih (day + 1)
        (round2 (bal + ((dayTransactions active day).map Prod.snd).sum)) j hj
      simp only [projectDays, List.get_cons_succ] at this ⊢
      rw [this]
      congr 1
      push_cast
      ring

theorem projectDays_get_danger (active : List RecurringTxn) (threshold : ℚ) :
    ∀ (n : ℕ) (day : ℤ) (bal : ℚ) (i : ℕ)
      (hi : i < (projectDays active threshold day bal n).length),
      ((projectDays active threshold day bal n).get ⟨i, hi⟩).is_danger =
        decide (((projectDays active threshold day bal n).get ⟨i, hi⟩).balance < threshold) := by
  intro n
  induction n with
  | zero => intro day bal i hi; simp [projectDays] at hi
  | succ m ih =>
    intro day bal i hi
    match i with
    | 0 => simp [projectDays]
    | j + 1 =>
      simp only [projectDays, List.get_cons_succ]
      exact ih _ _ j _

theorem projectDays_get_zero_balance (active : List RecurringTxn) (threshold : ℚ)
    (n : ℕ) (day : ℤ) (bal : ℚ)
    (h0 : 0 < (projectDays active threshold day bal n).length) :
    ((projectDays active threshold day bal n).get ⟨0, h0⟩).balance =
      round2 (bal + daySum active day) := by
  match n with
  | 0 => simp [projectDays] at h0
  | m + 1 => simp [projectDays, daySum]

theorem projectDays_get_succ_balance (active : List RecurringTxn) (threshold : ℚ) :
    ∀ (n : ℕ) (day : ℤ) (bal : ℚ) (i : ℕ)
      (hi : i + 1 < (projectDays active threshold day bal n).length)
      (hi' : i < (projectDays active threshold day bal n).length),
      ((projectDays active threshold day bal n).get ⟨i + 1, hi⟩).balance =
        round2 (((projectDays active threshold day bal n).get ⟨i, hi'⟩).balance +
          daySum active (day + i + 1)) := by
  intro n
  induction n with
  | zero => intro day bal i hi hi'; simp [projectDays] at hi
  | succ m ih =>
    intro day bal i hi hi'
    match i with
    | 0 =>
      have h0 : 0 < (projectDays active threshold (day + 1)
          (round2 (bal + ((dayTransactions active day).map Prod.snd).sum)) m).length := by
        have := projectDays_length active threshold m (day + 1)
          (round2 (bal + ((dayTransactions active day).map Prod.snd).sum))
        have hlen := projectDays_length active threshold (m + 1) day bal
        omega
      simp only [projectDays, List.get_cons_succ, List.get_cons_zero]
      rw [projectDays_get_zero_balance active threshold m _ _ h0]
      norm_num
    | j + 1 =>
      have hj1 : j + 1 < (projectDays active threshold (day + 1)
          (round2 (bal + ((dayTransactions active day).map Prod.snd).sum)) m).length := by
        have := projectDays_length active threshold m (day + 1)
          (round2 (bal + ((dayTransactions active day).map Prod.snd).sum))
        have hlen := projectDays_length active threshold (m + 1) day bal
        omega
      have hj : j < (projectDays active threshold (day + 1)
          (round2 (bal + ((dayTransactions active day).map Prod.snd).sum)) m).length := by
        omega
      have := ih (day + 1)
        (round2 (bal + ((dayTransactions active day).map Prod.snd).sum)) j hj1 hj
      simp only [projectDays, List.get_cons_succ] at this ⊢
      rw [this]
      congr 2
      push_cast
      ring

theorem advanceSteps_bound (interval : ℕ) (today : ℤ) (hi : 0 < interval) :
    ∀ cand, advanceSteps interval today cand * interval ≤ (today - cand).toNat + interval := by
  intro cand
  induction cand using advanceSteps.induct interval today with
  | case1 x hcond ih =>
    rw [advanceSteps.eq_def, dif_pos hcond]
    rw [add_mul, one_mul]
    by_cases h2 : x + (interval : ℤ) < today
    · generalize hA : advanceSteps interval today (x + (interval : ℤ)) * interval = A at ih ⊢
      omega
    · have hz : advanceSteps interval today (x + (interval : ℤ)) = 0 := by
        rw [advanceSteps.eq_def, dif_neg]
        rintro ⟨hlt, _⟩
        exact h2 hlt
      rw [hz]
      have := hcond.1
      omega
  | case2 x hcond =>
    rw [advanceSteps.eq_def, dif_neg hcond]
    omega

theorem advanceFuel_eq_loop (interval : ℕ) (today : ℤ) :
    ∀ cand, advanceFuel interval today (advanceSteps interval today cand) cand =
      advancePastToday interval today cand := by
  intro cand
  induction cand using advanceSteps.induct interval today with
  | case1 x hcond ih =>
    rw [advanceSteps.eq_def, dif_pos hcond]
    simp only [advanceFuel]
    rw [if_pos hcond.1, ih]
    conv_rhs => rw [advancePastToday.eq_def]
    rw [dif_pos hcond]
  | case2 x hcond =>
    rw [advanceSteps.eq_def, dif_neg hcond, advancePastToday.eq_def, dif_neg hcond]
    rfl

theorem occursSteps_bound (interval : ℕ) (day : ℤ) (hi : 0 < interval) :
    ∀ check, occursSteps interval day check * interval ≤
      (day - check).toNat + 2 * interval := by
  intro check
  induction check using occursSteps.induct interval day with
  | case1 =>
    rw [occursSteps.eq_def, if_pos rfl]
    omega
  | case2 x hne hcond ih =>
    rw [occursSteps.eq_def, if_neg hne, dif_pos hcond]
    rw [add_mul, one_mul]
    by_cases h2 : x + (interval : ℤ) < day
    · generalize hA : occursSteps interval day (x + (interval : ℤ)) * interval = A at ih ⊢
      omega
    · have hz : occursSteps interval day (x + (interval : ℤ)) = 1 := by
        rw [occursSteps.eq_def]
        by_cases he : x + (interval : ℤ) = day
        · rw [if_pos he]
        · rw [if_neg he, dif_neg]
          rintro ⟨hlt, _⟩
          exact h2 hlt
      rw [hz]
      have := hcond.1
      omega
  | case3 x hne hcond =>
    rw [occursSteps.eq_def, if_neg hne, dif_neg hcond]
    omega

theorem occursFuel_eq_loop (interval : ℕ) (day : ℤ) (hi : 0 < interval) :
    ∀ check, occursFuel interval day (occursSteps interval day check) check =
      occursOn interval day check := by
  intro check
  induction check using occursSteps.induct interval day with
  | case1 =>
    rw [occursSteps.eq_def, if_pos rfl]
    conv_rhs => rw [occursOn.eq_def]
    simp [occursFuel]
  | case2 x hne hcond ih =>
    rw [occursSteps.eq_def, if_neg hne, dif_pos hcond]
    simp only [occursFuel]
    rw [if_neg hne, if_pos hcond.1, ih]
    conv_rhs => rw [occursOn.eq_def]
    rw [if_neg hne, dif_pos hcond]
  | case3 x hne hcond =>
    have hxd : ¬x < day := by
      rcases not_and_or.mp hcond with hx | hx
      · exact hx
      · exact absurd hi hx
    rw [occursSteps.eq_def, if_neg hne, dif_neg hcond]
    simp only [occursFuel]
    conv_rhs => rw [occursOn.eq_def]
    rw [if_neg hne, if_neg hxd, if_neg hne, dif_neg hcond]

theorem foldl_min_le_init (l : List ℚ) : ∀ b : ℚ, l.foldl min b ≤ b := by
  induction l with
  | nil => intro b; simp
  | cons c cs ih =>
    intro b
    calc (c :: cs).foldl min b = cs.foldl min (min b c) := rfl
    _ ≤ min b c := ih (min b c)
    _ ≤ b := min_le_left b c

theorem foldl_min_le_mem (l : List ℚ) :
    ∀ (b x : ℚ), x ∈ b :: l → l.foldl min b ≤ x := by
  induction l with
  | nil =>
    intro b x hx
    have hxb : x = b := by simpa using hx
    simp [hxb]
  | cons c cs ih =>
    intro b x hx
    rcases List.mem_cons.mp hx with hb | hx'
    · calc (c :: cs).foldl min b ≤ b := foldl_min_le_init (c :: cs) b
      _ = x := hb.symm
    · rcases List.mem_cons.mp hx' with hc | hcs
      · calc (c :: cs).foldl min b = cs.foldl min (min b c) := rfl
        _ ≤ min b c := foldl_min_le_init cs (min b c)
        _ ≤ c := min_le_right b c
        _ = x := hc.symm
      · exact ih (min b c) x (List.mem_cons_of_mem _ hcs)

theorem foldl_min_mem (l : List ℚ) : ∀ b : ℚ, l.foldl min b ∈ b :: l := by
  induction l with
  | nil => intro b; exact List.mem_singleton.mpr rfl
  | cons c cs ih =>
    intro b
    have := ih (min b c)
    rcases List.mem_cons.mp this with hm | hm
    · rcases min_choice b c with hbc | hbc
      · exact List.mem_cons.mpr (Or.inl (hm.trans hbc))
      · exact List.mem_cons.mpr (Or.inr (List.mem_cons.mpr (Or.inl (hm.trans hbc))))
    · exact List.mem_cons.mpr (Or.inr (List.mem_cons.mpr (Or.inr hm)))

/-! ## Claim theorems (part 1) -/

/-- C3: the frequency classifier is a pure total function of the rounded
average interval, given by the ordered bucket chain in which the first
matching bound wins; the two call sites (`loadData` and `loadSuggestions`)
compute the same function, and the bucket boundaries map as
8 → weekly, 9 → biweekly, 16 → biweekly, 17 → monthly, 35 → monthly,
36 → quarterly, 100 → quarterly, 101 → annual. -/
theorem frequency_classifier_boundaries :
    (∀ i : ℤ, classifyFrequency i = classifyFrequencySuggestion i)
    ∧ classifyFrequency 8 = "weekly" ∧ classifyFrequency 9 = "biweekly"
    ∧ classifyFrequency 16 = "biweekly" ∧ classifyFrequency 17 = "monthly"
    ∧ classifyFrequency 35 = "monthly" ∧ classifyFrequency 36 = "quarterly"
    ∧ classifyFrequency 100 = "quarterly" ∧ classifyFrequency 101 = "annual" :=
  ⟨fun _ => rfl, by decide, by decide, by decide, by decide, by decide, by decide,
    by decide, by decide⟩

/-- C4: for every pattern whose rounded interval is at least 5, the
next-occurrence prediction (start at `last_date + interval`, then add
`interval` while strictly before `today`) lands on or after `today`; in
particular `last_date = today - 40` with interval 30 predicts `today + 20`. -/
theorem next_occurrence_ge_today (today lastDate : ℤ) (interval : ℕ)
    (h5 : 5 ≤ interval) :
    today ≤ nextOccurrence today lastDate interval
    ∧ nextOccurrence today (today - 40) 30 = today + 20 := by
  constructor
  · exact advancePastToday_ge interval today (by omega) (lastDate + interval)
  · show advancePastToday 30 today (today - 40 + ((30 : ℕ) : ℤ)) = today + 20
    rw [show today - 40 + ((30 : ℕ) : ℤ) = today - 10 by push_cast; ring]
    rw [advancePastToday.eq_def, dif_pos ⟨by omega, by norm_num⟩]
    rw [show today - 10 + ((30 : ℕ) : ℤ) = today + 20 by push_cast; ring]
    rw [advancePastToday.eq_def, dif_neg]
    rintro ⟨hlt, _⟩
    omega

/-- C7: when the exclusion-store write fails, the hide and unhide actions
surface a recoverable error and leave the whole view state untouched (no
`is_hidden` flag flips, the hidden-key set is unmodified, and the projections
are not regenerated); the state changes only when the write succeeded. -/
theorem hide_unhide_write_failure (s : ViewState) (key : String) :
    hideTransaction false s key = (s, Except.error ())
    ∧ unhideTransaction false s key = (s, Except.error ())
    ∧ (hideTransaction false s key).1.recurringTransactions = s.recurringTransactions
    ∧ (hideTransaction false s key).1.hiddenKeys = s.hiddenKeys
    ∧ (hideTransaction false s key).1.projections = s.projections
    ∧ hideTransaction true s key = (hideTransactionOk s key, Except.ok ())
    ∧ unhideTransaction true s key = (unhideTransactionOk s key, Except.ok ()) :=
  ⟨rfl, rfl, rfl, rfl, rfl, rfl, rfl⟩

/-- C8: with an interval of at least 5 days, both date-advancing loops
terminate: running each loop with fuel equal to its step count reproduces the
(unbounded) loop, and the step count is bounded by gap / interval plus a
constant, stated multiplicatively as steps * interval ≤ gap + 2 * interval. -/
theorem date_loops_terminate (interval : ℕ) (today cand day check : ℤ)
    (h5 : 5 ≤ interval) :
    advanceSteps interval today cand * interval ≤ (today - cand).toNat + interval
    ∧ advanceFuel interval today (advanceSteps interval today cand) cand =
        advancePastToday interval today cand
    ∧ occursSteps interval day check * interval ≤ (day - check).toNat + 2 * interval
    ∧ occursFuel interval day (occursSteps interval day check) check =
        occursOn interval day check :=
  ⟨advanceSteps_bound interval today (by omega) cand,
   advanceFuel_eq_loop interval today cand,
   occursSteps_bound interval day (by omega) check,
   occursFuel_eq_loop interval day (by omega) check⟩

/-- C10: changing the projection horizon recomputes only the horizon value and
the projection list: the detected pattern list (hence every pattern's
`is_hidden` flag), the hidden-key set, the current balance, the danger
threshold and the reference date are all unchanged, and the new projections
are exactly the regeneration at the new horizon. -/
theorem setHorizon_frame (s : ViewState) (days : ℕ) :
    (setHorizon s days).recurringTransactions = s.recurringTransactions
    ∧ (setHorizon s days).hiddenKeys = s.hiddenKeys
    ∧ (setHorizon s days).currentBalance = s.currentBalance
    ∧ (setHorizon s days).dangerThreshold = s.dangerThreshold
    ∧ (setHorizon s days).today = s.today
    ∧ ((setHorizon s days).recurringTransactions.map (·.is_hidden)) =
        (s.recurringTransactions.map (·.is_hidden))
    ∧ (setHorizon s days).horizonDays = days
    ∧ (setHorizon s days).projections = stateProjections { s with horizonDays := days } :=
  ⟨rfl, rfl, rfl, rfl, rfl, rfl, rfl, rfl⟩

theorem projectDays_balances_const (active : List RecurringTxn) (threshold : ℚ)
    (hno : ∀ d : ℤ, dayTransactions active d = []) :
    ∀ (n : ℕ) (day : ℤ) (bal : ℚ), round2 bal = bal →
      (projectDays active threshold day bal n).map (·.balance) =
        List.replicate n bal := by
  intro n
  induction n with
  | zero => intro day bal _; rfl
  | succ m ih =>
    intro day bal hbal
    have hb2 : round2 (bal + ((dayTransactions active day).map Prod.snd).sum) = bal := by
      rw [hno day]
      simpa using hbal
    simp only [projectDays]
    rw [hb2]
    simp [List.replicate_succ, ih (day + 1) bal hbal]

theorem foldl_min_replicate (b : ℚ) : ∀ n : ℕ, (List.replicate n b).foldl min b = b := by
  intro n
  induction n with
  | zero => rfl
  | succ m ih => simpa [List.replicate_succ, min_self] using ih

theorem lowestBalance_eq (p : List ProjectedDay) (cb b : ℚ) (bs : List ℚ)
    (hmap : p.map (·.balance) = b :: bs) : lowestBalance p cb = bs.foldl min b := by
  unfold lowestBalance
  rw [hmap]

/-! ## Claim theorems (part 2) -/

/-- C1: for every starting balance, horizon, danger threshold, reference date
and pattern list, the balance projector returns exactly horizon + 1 days; day
i carries date today + i; a pattern lands on a date exactly when that date is
`next_date + k * interval_days` for some natural k (day-0 included); each
day's transaction list consists of exactly the landing non-hidden patterns;
each day's balance is the previous day's balance (the starting balance for
day 0) plus the day's landing total, rounded to 2 decimals after the
addition; and the danger flag holds exactly when the balance is strictly
below the threshold. -/
theorem balance_projector_spec (today : ℤ) (startBal threshold : ℚ) (h : ℕ)
    (recurring : List RecurringTxn) (hidden : Finset String) :
    (generateProjections today startBal threshold h recurring hidden).length = h + 1
    ∧ (∀ (i : ℕ)
        (hi : i < (generateProjections today startBal threshold h recurring hidden).length),
        ((generateProjections today startBal threshold h recurring hidden).get
            ⟨i, hi⟩).date = today + i)
    ∧ (∀ (t : RecurringTxn) (d : ℤ),
        occursOn t.interval_days d t.next_date = true ↔
          ∃ k : ℕ, d = t.next_date + (k : ℤ) * (t.interval_days : ℤ))
    ∧ (∀ (i : ℕ)
        (hi : i < (generateProjections today startBal threshold h recurring hidden).length),
        ((generateProjections today startBal threshold h recurring hidden).get
            ⟨i, hi⟩).transactions =
          dayTransactions (recurring.filter fun t => decide (t.merchant_key ∉ hidden))
            (today + i))
    ∧ (∀ (h0 : 0 < (generateProjections today startBal threshold h recurring hidden).length),
        ((generateProjections today startBal threshold h recurring hidden).get
            ⟨0, h0⟩).balance =
          round2 (startBal +
            daySum (recurring.filter fun t => decide (t.merchant_key ∉ hidden)) today))
    ∧ (∀ (i : ℕ)
        (hi1 : i + 1 < (generateProjections today startBal threshold h recurring hidden).length)
        (hi : i < (generateProjections today startBal threshold h recurring hidden).length),
        ((generateProjections today startBal threshold h recurring hidden).get
            ⟨i + 1, hi1⟩).balance =
          round2 (((generateProjections today startBal threshold h recurring hidden).get
              ⟨i, hi⟩).balance +
            daySum (recurring.filter fun t => decide (t.merchant_key ∉ hidden))
              (today + i + 1)))
    ∧ (∀ (i : ℕ)
        (hi : i < (generateProjections today startBal threshold h recurring hidden).length),
        ((generateProjections today startBal threshold h recurring hidden).get
            ⟨i, hi⟩).is_danger =
          decide (((generateProjections today startBal threshold h recurring hidden).get
              ⟨i, hi⟩).balance < threshold)) := by
  refine ⟨?_, ?_, ?_, ?_, ?_, ?_, ?_⟩
  · exact projectDays_length _ threshold (h + 1) today startBal
  · exact fun i hi => projectDays_get_date _ threshold (h + 1) today startBal i hi
  · exact fun t d => occursOn_iff t.interval_days d t.next_date
  · exact fun i hi => projectDays_get_txns _ threshold (h + 1) today startBal i hi
  · exact fun h0 => projectDays_get_zero_balance _ threshold (h + 1) today startBal h0
  · exact fun i hi1 hi =>
      projectDays_get_succ_balance _ threshold (h + 1) today startBal i hi1 hi
  · exact fun i hi => projectDays_get_danger _ threshold (h + 1) today startBal i hi

/-- C5: the derived lowest-balance aggregate is the minimum over all projected
day balances (it is one of them and is below or equal to each of them), and
it equals the starting balance when no occurrence lands on any projected day
(given a starting balance already rounded to cents, as `loadData` guarantees). -/
theorem lowest_balance_spec (today : ℤ) (startBal threshold : ℚ) (h : ℕ)
    (recurring : List RecurringTxn) (hidden : Finset String) (cb : ℚ) :
    (lowestBalance (generateProjections today startBal threshold h recurring hidden) cb ∈
        (generateProjections today startBal threshold h recurring hidden).map (·.balance))
    ∧ (∀ b ∈ (generateProjections today startBal threshold h recurring hidden).map
          (·.balance),
        lowestBalance (generateProjections today startBal threshold h recurring hidden) cb
          ≤ b)
    ∧ ((∀ d : ℤ,
          dayTransactions (recurring.filter fun t => decide (t.merchant_key ∉ hidden)) d
            = []) →
        round2 startBal = startBal →
        lowestBalance (generateProjections today startBal threshold h recurring hidden) cb
          = startBal) := by
  have hlen : (generateProjections today startBal threshold h recurring hidden).length
      = h + 1 := projectDays_length _ threshold (h + 1) today startBal
  obtain ⟨d, ds, hp⟩ :
      ∃ d ds, generateProjections today startBal threshold h recurring hidden = d :: ds := by
    cases hq : generateProjections today startBal threshold h recurring hidden with
    | nil => rw [hq] at hlen; simp at hlen
    | cons d ds => exact ⟨d, ds, rfl⟩
  have hlow : lowestBalance (generateProjections today startBal threshold h recurring hidden)
      cb = (ds.map (·.balance)).foldl min d.balance :=
    lowestBalance_eq _ cb d.balance (ds.map (·.balance)) (by rw [hp, List.map_cons])
  refine ⟨?_, ?_, ?_⟩
  · rw [hlow, hp, List.map_cons]
    exact foldl_min_mem (ds.map (·.balance)) d.balance
  · intro b hb
    rw [hlow]
    rw [hp, List.map_cons] at hb
    exact foldl_min_le_mem (ds.map (·.balance)) d.balance b hb
  · intro hno hst
    have hconst : (generateProjections today startBal threshold h recurring hidden).map
        (·.balance) = List.replicate (h + 1) startBal :=
      projectDays_balances_const _ threshold hno (h + 1) today startBal hst
    rw [lowestBalance_eq _ cb startBal (List.replicate h startBal)
      (by rw [hconst, List.replicate_succ])]
    exact foldl_min_replicate startBal h

theorem hide_unhide_map (l : List RecurringTxn) (key : String)
    (hflag : ∀ t ∈ l, t.merchant_key = key → t.is_hidden = false) :
    ((l.map fun (t : RecurringTxn) =>
        if t.merchant_key = key then { t with is_hidden := true } else t).map
      fun (t : RecurringTxn) =>
        if t.merchant_key = key then { t with is_hidden := false } else t) = l := by
  induction l with
  | nil => rfl
  | cons a as ih =>
    simp only [List.map_cons, List.cons.injEq]
    constructor
    · by_cases ha : a.merchant_key = key
      · have hfa : a.is_hidden = false := hflag a (List.mem_cons_self a as) ha
        cases a
        simp_all
      · cases a
        simp_all
    · exact ih fun t ht hk => hflag t (List.mem_cons_of_mem a ht) hk

/-- C6: hiding a merchant key that is currently visible and then unhiding it
restores the exact previous state: the pattern list (with its `is_hidden`
flags), the hidden-key set and the projection list are all identical to what
they were before the hide, given an unchanged transaction history (the state's
pattern list) and reference date. -/
theorem hide_unhide_roundtrip (s : ViewState) (key : String)
    (hk : key ∉ s.hiddenKeys)
    (hflag : ∀ t ∈ s.recurringTransactions, t.merchant_key = key → t.is_hidden = false)
    (hproj : s.projections = stateProjections s) :
    unhideTransactionOk (hideTransactionOk s key) key = s := by
  have hmap := hide_unhide_map s.recurringTransactions key hflag
  have hset : (insert key s.hiddenKeys).erase key = s.hiddenKeys := Finset.erase_insert hk
  cases s with
  | mk rec hid cb proj hor thr td =>
    simp only [hideTransactionOk, unhideTransactionOk, stateProjections] at hmap hset hproj ⊢
    rw [hmap, hset, ← hproj]

/-! ## Detection-stage lemmas -/

theorem intervalRows_short (l : List GroupedTxn) (hl : l.length ≤ 1) :
    intervalRows l = [] := by
  cases l with
  | nil => rfl
  | cons a as =>
    cases as with
    | nil => rfl
    | cons b bs => simp at hl

theorem clusterMembers_short (grouped : List GroupedTxn) (k : String × ℚ)
    (hk : (grouped.filter fun g =>
        decide ((g.merchant_group, g.norm_amount) = k)).length ≤ 1) :
    intervalRows (clusterMembers grouped k) = [] := by
  apply intervalRows_short
  unfold clusterMembers
  rw [List.length_insertionSort]
  exact hk

theorem recurringStat_bounds (grouped : List GroupedTxn) (today : ℤ) (k : String × ℚ)
    (s : RecurringRow) (hs : recurringStat grouped today k = some s) :
    5 ≤ s.avg_interval ∧ s.avg_interval ≤ 400 ∧ 3 ≤ s.occurrence_count := by
  unfold recurringStat at hs
  split at hs
  · exact absurd hs (by simp)
  · rename_i iv ivs heq
    split_ifs at hs with hcond
    · obtain ⟨h2, ⟨h5, h400⟩, _⟩ := hcond
      injection hs with hs
      subst hs
      refine ⟨h5, h400, ?_⟩
      show 3 ≤ (iv :: ivs).length + 1
      omega

theorem suggestionStat_bounds (grouped : List GroupedTxn) (k : String × ℚ)
    (s : ClusterStats) (hs : suggestionStat grouped k = some s) :
    5 ≤ s.avg_interval ∧ s.avg_interval ≤ 400 ∧ 2 ≤ s.occurrence_count := by
  unfold suggestionStat at hs
  split at hs
  · exact absurd hs (by simp)
  · rename_i iv ivs heq
    split_ifs at hs with hcond
    · obtain ⟨h1, h5, h400⟩ := hcond
      injection hs with hs
      subst hs
      refine ⟨h5, h400, ?_⟩
      show 2 ≤ (iv :: ivs).length + 1
      omega

theorem recurringStat_short_none (grouped : List GroupedTxn) (today : ℤ)
    (k : String × ℚ)
    (hk : (grouped.filter fun g =>
        decide ((g.merchant_group, g.norm_amount) = k)).length ≤ 1) :
    recurringStat grouped today k = none := by
  unfold recurringStat
  rw [clusterMembers_short grouped k hk]

theorem suggestionStat_short_none (grouped : List GroupedTxn) (k : String × ℚ)
    (hk : (grouped.filter fun g =>
        decide ((g.merchant_group, g.norm_amount) = k)).length ≤ 1) :
    suggestionStat grouped k = none := by
  unfold suggestionStat
  rw [clusterMembers_short grouped k hk]

theorem clusterStat_short_none (cfg : DetectConfig) (grouped : List GroupedTxn)
    (k : String × ℚ)
    (hk : (grouped.filter fun g =>
        decide ((g.merchant_group, g.norm_amount) = k)).length ≤ 1) :
    clusterStat cfg grouped k = none := by
  unfold clusterStat
  rw [clusterMembers_short grouped k hk]

theorem recurringStat_commonStats (grouped : List GroupedTxn) (today : ℤ)
    (k : String × ℚ) :
    (recurringStat grouped today k).map commonStats =
      clusterStat ⟨2, true⟩ grouped k := by
  unfold recurringStat clusterStat
  split
  · rfl
  · rename_i iv ivs heq
    by_cases hcond : 2 ≤ (iv :: ivs).length
        ∧ (5 ≤ avgQ ((iv :: ivs).map fun r => (r.interval_days : ℚ))
            ∧ avgQ ((iv :: ivs).map fun r => (r.interval_days : ℚ)) ≤ 400)
        ∧ sampleVarQ ((iv :: ivs).map fun r => (r.interval_days : ℚ)) <
            (avgQ ((iv :: ivs).map fun r => (r.interval_days : ℚ)) * (1/2)) ^ 2
    · rw [if_pos hcond, if_pos ⟨hcond.1, hcond.2.1, fun _ => ⟨hcond.1, hcond.2.2⟩⟩]
      rfl
    · rw [if_neg hcond, if_neg ?_]
      · rfl
      · rintro ⟨h2, hb, hc⟩
        exact hcond ⟨h2, hb, (hc rfl).2⟩

theorem suggestionStat_clusterStat (grouped : List GroupedTxn) (k : String × ℚ) :
    suggestionStat grouped k = clusterStat ⟨1, false⟩ grouped k := by
  unfold suggestionStat clusterStat
  split
  · rfl
  · rename_i iv ivs heq
    by_cases hcond : 1 ≤ (iv :: ivs).length
        ∧ (5 ≤ avgQ ((iv :: ivs).map fun r => (r.interval_days : ℚ))
            ∧ avgQ ((iv :: ivs).map fun r => (r.interval_days : ℚ)) ≤ 400)
    · rw [if_pos hcond, if_pos ⟨hcond.1, hcond.2, fun hf => absurd hf (by simp)⟩]
    · rw [if_neg hcond, if_neg ?_]
      rintro ⟨h1, hb, _⟩
      exact hcond ⟨h1, hb⟩

/-! ## Claim theorems (part 3) -/

/-- C2: every row returned by the dashboard detection query has
5 ≤ avg_interval ≤ 400 and occurrence_count ≥ 3, every row returned by the
suggestion detection query has 5 ≤ avg_interval ≤ 400 and occurrence_count ≥ 2,
and a merchant/amount cluster containing at most one transaction (hence zero
gaps) produces no output row under either query or under any configuration of
the shared detection function. -/
theorem detection_output_invariants (sim : String → String → ℚ) (today : ℤ)
    (rows : List RawTxn) :
    (∀ s ∈ recurringQuery sim today rows,
        5 ≤ s.avg_interval ∧ s.avg_interval ≤ 400 ∧ 3 ≤ s.occurrence_count)
    ∧ (∀ s ∈ suggestionQuery sim rows,
        5 ≤ s.avg_interval ∧ s.avg_interval ≤ 400 ∧ 2 ≤ s.occurrence_count)
    ∧ (∀ (grouped : List GroupedTxn) (k : String × ℚ),
        (grouped.filter fun g =>
            decide ((g.merchant_group, g.norm_amount) = k)).length ≤ 1 →
        recurringStat grouped today k = none
        ∧ suggestionStat grouped k = none
        ∧ ∀ cfg : DetectConfig, clusterStat cfg grouped k = none) := by
  refine ⟨?_, ?_, ?_⟩
  · intro s hs
    rw [recurringQuery, List.mem_insertionSort] at hs
    obtain ⟨k, _, hk⟩ := List.mem_filterMap.mp hs
    exact recurringStat_bounds _ today k s hk
  · intro s hs
    rw [suggestionQuery, List.mem_insertionSort] at hs
    obtain ⟨k, _, hk⟩ := List.mem_filterMap.mp hs
    exact suggestionStat_bounds _ k s hk
  · intro grouped k hk
    exact ⟨recurringStat_short_none grouped today k hk,
      suggestionStat_short_none grouped k hk,
      fun cfg => clusterStat_short_none cfg grouped k hk⟩

/-- C9: the two detection queries are one shared detection function under two
configuration presets: up to the final ordering, the dashboard query's common
statistics columns are the shared function at (minimum 2 gaps, consistency
filter on) and the suggestion query is the shared function at (minimum 1 gap,
consistency filter off); hence instantiated with equal minimum-occurrence
thresholds and the same consistency setting the two produce the same clusters
and per-cluster statistics for every transaction history. -/
theorem detection_two_presets (sim : String → String → ℚ) (today : ℤ)
    (rows : List RawTxn) :
    ((recurringQuery sim today rows).map commonStats).Perm
        (sharedDetect ⟨2, true⟩ sim rows)
    ∧ (suggestionQuery sim rows).Perm (sharedDetect ⟨1, false⟩ sim rows) := by
  constructor
  · unfold recurringQuery sharedDetect
    refine ((List.perm_insertionSort _ _).map commonStats).trans ?_
    rw [List.map_filterMap]
    rw [show (fun k => (recurringStat
          (groupedTransactions sim (baseTransactions rows)) today k).map commonStats) =
        clusterStat ⟨2, true⟩ (groupedTransactions sim (baseTransactions rows)) from
      funext fun k => recurringStat_commonStats _ today k]
  · unfold suggestionQuery sharedDetect
    refine (List.perm_insertionSort _ _).trans ?_
    rw [show suggestionStat (groupedTransactions sim (baseTransactions rows)) =
        clusterStat ⟨1, false⟩ (groupedTransactions sim (baseTransactions rows)) from
      funext fun k => suggestionStat_clusterStat _ k]

/-! ## Concrete instances

The `Rat` arithmetic operations are `@[irreducible]` by default, which blocks
`decide` from evaluating concrete rational expressions; restoring the normal
reducibility here lets the instances below evaluate. -/

attribute [local semireducible] Rat.add Rat.mul Rat.sub Rat.inv

/-- Witness for C4 at today = 0, last date 40 days before, interval 30. -/
theorem next_occurrence_ge_today_witness :
    (5 ≤ 30)
    ∧ ((0 : ℤ) ≤ nextOccurrence 0 (-40) 30
        ∧ nextOccurrence 0 (0 - 40) 30 = 0 + 20) :=
  ⟨by decide, next_occurrence_ge_today 0 (-40) 30 (by decide)⟩

/-- Witness for C8 at interval 7, today 10, cand 0, day 14, check 0. -/
theorem date_loops_terminate_witness :
    (5 ≤ 7)
    ∧ (advanceSteps 7 10 0 * 7 ≤ ((10 : ℤ) - 0).toNat + 7
        ∧ advanceFuel 7 10 (advanceSteps 7 10 0) 0 = advancePastToday 7 10 0
        ∧ occursSteps 7 14 0 * 7 ≤ ((14 : ℤ) - 0).toNat + 2 * 7
        ∧ occursFuel 7 14 (occursSteps 7 14 0) 0 = occursOn 7 14 0) :=
  ⟨by decide, date_loops_terminate 7 10 0 14 0 (by decide)⟩

/-- Witness for C1 at today = 0, balance 100, threshold 50, horizon 1, no
patterns, empty hidden set. -/
theorem balance_projector_spec_witness :
    ((generateProjections 0 100 50 1 ([] : List RecurringTxn) ∅).length = 1 + 1)
    ∧ (0 < (generateProjections 0 100 50 1 ([] : List RecurringTxn) ∅).length)
    ∧ ((generateProjections 0 100 50 1 ([] : List RecurringTxn) ∅).get
        ⟨0, by decide⟩).date = 0 + ((0 : ℕ) : ℤ)
    ∧ ((generateProjections 0 100 50 1 ([] : List RecurringTxn) ∅).get
        ⟨0, by decide⟩).transactions =
      dayTransactions (([] : List RecurringTxn).filter fun t =>
        decide (t.merchant_key ∉ (∅ : Finset String))) (0 + ((0 : ℕ) : ℤ))
    ∧ ((generateProjections 0 100 50 1 ([] : List RecurringTxn) ∅).get
        ⟨0, by decide⟩).balance =
      round2 (100 + daySum (([] : List RecurringTxn).filter fun t =>
        decide (t.merchant_key ∉ (∅ : Finset String))) 0)
    ∧ ((generateProjections 0 100 50 1 ([] : List RecurringTxn) ∅).get
        ⟨0 + 1, by decide⟩).balance =
      round2 (((generateProjections 0 100 50 1 ([] : List RecurringTxn) ∅).get
          ⟨0, by decide⟩).balance +
        daySum (([] : List RecurringTxn).filter fun t =>
          decide (t.merchant_key ∉ (∅ : Finset String))) (0 + ((0 : ℕ) : ℤ) + 1))
    ∧ ((generateProjections 0 100 50 1 ([] : List RecurringTxn) ∅).get
        ⟨0, by decide⟩).is_danger =
      decide (((generateProjections 0 100 50 1 ([] : List RecurringTxn) ∅).get
          ⟨0, by decide⟩).balance < 50) :=
  ⟨(balance_projector_spec 0 100 50 1 [] ∅).1,
   by decide,
   (balance_projector_spec 0 100 50 1 [] ∅).2.1 0 (by decide),
   (balance_projector_spec 0 100 50 1 [] ∅).2.2.2.1 0 (by decide),
   (balance_projector_spec 0 100 50 1 [] ∅).2.2.2.2.1 (by decide),
   (balance_projector_spec 0 100 50 1 [] ∅).2.2.2.2.2.1 0 (by decide) (by decide),
   (balance_projector_spec 0 100 50 1 [] ∅).2.2.2.2.2.2 0 (by decide)⟩

/-- Witness for C5 at today = 0, starting balance 1000, horizon 2, no patterns. -/
theorem lowest_balance_spec_witness :
    (lowestBalance (generateProjections 0 1000 0 2 ([] : List RecurringTxn) ∅) 1000 ∈
        (generateProjections 0 1000 0 2 ([] : List RecurringTxn) ∅).map (·.balance))
    ∧ ((1000 : ℚ) ∈
        (generateProjections 0 1000 0 2 ([] : List RecurringTxn) ∅).map (·.balance))
    ∧ lowestBalance (generateProjections 0 1000 0 2 ([] : List RecurringTxn) ∅) 1000
        ≤ 1000
    ∧ round2 1000 = 1000
    ∧ lowestBalance (generateProjections 0 1000 0 2 ([] : List RecurringTxn) ∅) 1000
        = 1000 :=
  ⟨(lowest_balance_spec 0 1000 0 2 [] ∅ 1000).1,
   by decide,
   (lowest_balance_spec 0 1000 0 2 [] ∅ 1000).2.1 1000 (by decide),
   by decide,
   (lowest_balance_spec 0 1000 0 2 [] ∅ 1000).2.2 (fun _ => rfl) (by decide)⟩

/-- A concrete pattern and view state for the hide / unhide round-trip. -/
def sampleTxn : RecurringTxn :=
  { description := "GYM", merchant_key := "GYM", amount := -10, frequency := "monthly",
    interval_days := 30, occurrence_count := 3, last_date := -10, next_date := 20,
    is_income := false, is_hidden := false }

def samplePre : ViewState :=
  { recurringTransactions := [sampleTxn], hiddenKeys := ∅, currentBalance := 1000,
    projections := [], horizonDays := 3, dangerThreshold := 0, today := 0 }

def sampleState : ViewState :=
  { samplePre with projections := stateProjections samplePre }

/-- Witness for C6 on `sampleState` and merchant key GYM. -/
theorem hide_unhide_roundtrip_witness :
    ("GYM" ∉ sampleState.hiddenKeys)
    ∧ (∀ t ∈ sampleState.recurringTransactions,
        t.merchant_key = "GYM" → t.is_hidden = false)
    ∧ sampleState.projections = stateProjections sampleState
    ∧ unhideTransactionOk (hideTransactionOk sampleState "GYM") "GYM" = sampleState :=
  ⟨by decide, by decide, rfl,
   hide_unhide_roundtrip sampleState "GYM" (by decide) (by decide) rfl⟩

/-- A similarity function and transaction history for the detection witnesses. -/
def simZero : String → String → ℚ := fun _ _ => 0

def sampleRows : List RawTxn :=
  [{ description := "NETFLIX", amount := -13, transaction_date := 10 },
   { description := "NETFLIX", amount := -13, transaction_date := 40 },
   { description := "NETFLIX", amount := -13, transaction_date := 70 }]

def sampleRecRow : RecurringRow :=
  { description := "NETFLIX", merchant_key := "NETFLIX", avg_amount := -13,
    occurrence_count := 3, avg_interval := 30, last_date := 70, days_since_last := 30 }

def sampleSugRow : ClusterStats :=
  { description := "NETFLIX", avg_amount := -13, occurrence_count := 3,
    avg_interval := 30, last_date := 70 }

def sampleGrouped : List GroupedTxn :=
  [{ norm_amount := 1, description := "A", amount := 1, transaction_date := 0,
     merchant_group := "A" }]

/-- Witness for C2 on a three-occurrence NETFLIX history (both queries) and a
single-transaction cluster (absence under every configuration). -/
theorem detection_output_invariants_witness :
    (sampleRecRow ∈ recurringQuery simZero 100 sampleRows)
    ∧ (5 ≤ sampleRecRow.avg_interval ∧ sampleRecRow.avg_interval ≤ 400
        ∧ 3 ≤ sampleRecRow.occurrence_count)
    ∧ (sampleSugRow ∈ suggestionQuery simZero sampleRows)
    ∧ (5 ≤ sampleSugRow.avg_interval ∧ sampleSugRow.avg_interval ≤ 400
        ∧ 2 ≤ sampleSugRow.occurrence_count)
    ∧ ((sampleGrouped.filter fun g =>
          decide ((g.merchant_group, g.norm_amount) = ("A", (1 : ℚ)))).length ≤ 1)
    ∧ recurringStat sampleGrouped 100 ("A", (1 : ℚ)) = none
    ∧ suggestionStat sampleGrouped ("A", (1 : ℚ)) = none :=
  ⟨by decide,
   (detection_output_invariants simZero 100 sampleRows).1 sampleRecRow (by decide),
   by decide,
   (detection_output_invariants simZero 100 sampleRows).2.1 sampleSugRow (by decide),
   by decide,
   ((detection_output_invariants simZero 100 sampleRows).2.2 sampleGrouped
     ("A", (1 : ℚ)) (by decide)).1,
   ((detection_output_invariants simZero 100 sampleRows).2.2 sampleGrouped
     ("A", (1 : ℚ)) (by decide)).2.1⟩

/-- A state in which the GYM key is already hidden, consistently: the key is
in the hidden set and the pattern's flag is set. -/
def sampleHiddenPre : ViewState :=
  { recurringTransactions := [{ sampleTxn with is_hidden := true }],
    hiddenKeys := {"GYM"}, currentBalance := 1000, projections := [],
    horizonDays := 3, dangerThreshold := 0, today := 0 }

def sampleHiddenState : ViewState :=
  { sampleHiddenPre with projections := stateProjections sampleHiddenPre }

/-- Counterexample to the unrestricted round-trip: hiding a merchant key that
is already hidden and then unhiding it does not reproduce the previous
pattern list — the pattern's `is_hidden` flag ends up false instead of true. -/
theorem hide_unhide_roundtrip_counterexample :
    (unhideTransactionOk (hideTransactionOk sampleHiddenState "GYM")
        "GYM").recurringTransactions ≠ sampleHiddenState.recurringTransactions := by
  decide
